import Mathlib

/-!
Verification of the Imgur download pipeline
(src/data_curation/downloading/imgur_downloader.py).

The Python module is shallowly embedded: pure string helpers become Lean
functions over character lists; the effectful downloaders become functions
of an explicit environment (HTTP transport behaviour, image decoding,
placeholder asset) that thread a filesystem value and record how often the
HTTP session's get method was invoked.  A Python function that can raise an
uncaught exception is embedded with an Except result, where an error value
models the propagated exception.
-/

set_option autoImplicit false

/-- Dynamically typed Python value, restricted to the shapes this module
actually returns: strings, integers (clasify_url returns -1) and None
(get_imgur_album_info returns None on a non-200 page fetch). -/
inductive PyVal where
  | str (s : String)
  | int (n : Int)
  | none
deriving DecidableEq

/-- Python substring test over character lists: pat occurs somewhere in s.
Embeds the Python expression pat in s. -/
def isPrefixList : List Char → List Char → Bool
  | [], _ => true
  | _ :: _, [] => false
  | p :: ps, c :: cs => (p == c) && isPrefixList ps cs

/-- Scan s left to right for an occurrence of pat. -/
def listContainsSubstr : List Char → List Char → Bool
  | [], pat => isPrefixList pat []
  | c :: rest, pat => isPrefixList pat (c :: rest) || listContainsSubstr rest pat

/-- Python membership test pat in s for strings. -/
def containsSubstr (s pat : String) : Bool :=
  listContainsSubstr s.data pat.data

/-- Replace the first occurrence of pat in s by repl; identity when pat does
not occur.  Embeds re.sub(pat, repl, s, count=1) for a pattern that matches
a fixed literal string. -/
def replaceFirstList (s pat repl : List Char) : List Char :=
  match s with
  | [] => []
  | c :: rest =>
    if isPrefixList pat (c :: rest) then repl ++ (c :: rest).drop pat.length
    else c :: replaceFirstList rest pat repl

/-- String version of replaceFirstList. -/
def replaceFirst (s pat repl : String) : String :=
  String.mk (replaceFirstList s.data pat.data repl.data)

/-- clasify_url from the source: classifies an Imgur URL.  Returns the
Python string 'image', 'album' or 'post', or the Python integer -1 when no
rule matches, in exactly the source's test order. -/
def clasify_url (imgur_link : String) : PyVal :=
  if containsSubstr imgur_link "i.imgur.com" then .str "image"
  else if containsSubstr imgur_link "/a/" || containsSubstr imgur_link "/gallery/" then .str "album"
  else if containsSubstr imgur_link "imgur.com" then .str "post"
  else .int (-1)

/-- The character class [a-zA-Z0-9] of the source's extension regex. -/
def isAlnumChar (c : Char) : Bool :=
  (decide ('a' ≤ c) && decide (c ≤ 'z')) ||
  (decide ('A' ≤ c) && decide (c ≤ 'Z')) ||
  (decide ('0' ≤ c) && decide (c ≤ '9'))

/-- Python's dollar anchor without re.MULTILINE: it matches at the very end
of the string and also just before a newline that is the last character, so
in suffix terms the remaining input must be empty or a single newline. -/
abbrev dollarMatch (r : List Char) : Prop :=
  r = [] ∨ r = ['\n']

/-- The dot of Python's regex syntax does not match a newline. -/
def notNl (c : Char) : Bool :=
  c != '\n'

/-- After the question mark, the regex consumes any run of non-newline
characters and then requires the dollar anchor: the remainder may therefore
hold no newline at all, or exactly one newline as its last character. -/
abbrev queryTailOk (r : List Char) : Prop :=
  dollarMatch (r.dropWhile notNl)

/-- Attempt of the regex tail after a literal dot: a nonempty greedy run of
[a-zA-Z0-9], followed either by a position where the dollar anchor matches
or by a question mark whose remainder satisfies the dollar anchor after a
run of non-newline characters.  Backtracking into a shorter run never helps
because the run would then be followed by an alphanumeric character, which
is neither a question mark nor a dollar position. -/
def matchAfterDot (cs : List Char) : Option (List Char) :=
  if cs.takeWhile isAlnumChar = [] then Option.none
  else if dollarMatch (cs.dropWhile isAlnumChar) then some (cs.takeWhile isAlnumChar)
  else if (cs.dropWhile isAlnumChar).head? = some '?' ∧
      queryTailOk ((cs.dropWhile isAlnumChar).drop 1) then
    some (cs.takeWhile isAlnumChar)
  else Option.none

/-- Leftmost search of the source's extension regex: try every position, a
match can only start at a literal dot. -/
def scanExt : List Char → Option (List Char)
  | [] => Option.none
  | c :: rest =>
    if c = '.' then
      match matchAfterDot rest with
      | some tok => some tok
      | Option.none => scanExt rest
    else scanExt rest

/-- find_image_url_extension from the source: group 1 of the leftmost match
of the extension regex, defaulting to jpeg when there is no match. -/
def find_image_url_extension (imgur_url : String) : String :=
  match scanExt imgur_url.data with
  | some tok => String.mk tok
  | Option.none => "jpeg"

/-- Follows the claim's words, not the source: a token attempt succeeds
when a nonempty alphanumeric run after the dot reaches the strict end of
the string or a question mark that introduces the query string running to
the end.  Used only to compare the claim's reading with the source's
actual regex semantics, which treat a trailing newline differently. -/
def specTokenAt (cs : List Char) : Option (List Char) :=
  if cs.takeWhile isAlnumChar = [] then Option.none
  else if cs.dropWhile isAlnumChar = [] then some (cs.takeWhile isAlnumChar)
  else if (cs.dropWhile isAlnumChar).head? = some '?' then some (cs.takeWhile isAlnumChar)
  else Option.none

/-- Follows the claim's words, not the source: leftmost search for a
token in the sense of specTokenAt. -/
def specTokenScan : List Char → Option (List Char)
  | [] => Option.none
  | c :: rest =>
    if c = '.' then
      match specTokenAt rest with
      | some tok => some tok
      | Option.none => specTokenScan rest
    else specTokenScan rest

/-- File contents as a byte list. -/
abbrev Bytes := List Nat

/-- The filesystem as an association list from paths to contents; the most
recent write for a path is listed first. -/
abbrev FS := List (String × Bytes)

/-- Writing a file (open for write then write the body). -/
def fsWrite (fs : FS) (path : String) (content : Bytes) : FS :=
  (path, content) :: fs

/-- os.remove: drop every entry recorded for the path. -/
def fsRemove : FS → String → FS
  | [], _ => []
  | (q, b) :: rest, path =>
    if q = path then fsRemove rest path else (q, b) :: fsRemove rest path

/-- Contents currently visible at a path, if any. -/
def fsLookup : FS → String → Option Bytes
  | [], _ => Option.none
  | (q, b) :: rest, path => if q = path then some b else fsLookup rest path

/-- os.path.join for a folder and a relative filename. -/
def os_path_join (folder filename : String) : String :=
  folder ++ "/" ++ filename

/-- Outcome of one invocation of the HTTP session's get method: either a
response (status code, declared Content-Type, body bytes) or a raised
exception carrying its message. -/
inductive GetResult where
  | response (statusCode : Nat) (contentType : String) (content : Bytes)
  | raise (msg : String)
deriving DecidableEq

/-- Outcome of fetching and parsing an album page: either a raised
exception, or a response whose parsed Open-Graph image meta element is
absent (none), present without a content attribute (some none), or present
with a content attribute (some (some c)). -/
inductive AlbumPage where
  | raise (msg : String)
  | response (statusCode : Nat) (ogImage : Option (Option String))
deriving DecidableEq

/-- The external world the module interacts with: the retrying HTTP session
used by download_imgur_image, PIL decoding of downloaded bytes into a pixel
sequence (as produced by getdata), the pixel sequence of the bundled
imgur_placeholder.jpg asset (or the exception raised when it cannot be
opened), and the album-page fetch-and-parse used by get_imgur_album_info. -/
structure Env where
  get : String → GetResult
  decode : Bytes → Except String Bytes
  placeholder : Except String Bytes
  albumGet : String → AlbumPage

/-- session.get applied to a possibly non-string URL: requests raises on a
None URL before reaching the network, which is how download_imgur_album can
hand None to download_imgur_image. -/
def session_get (env : Env) (url : PyVal) : GetResult :=
  match url with
  | .str s => env.get s
  | _ => .raise "Invalid URL"

/-- The url of download_imgur_image is only a string on every reachable
path that consults the extension (session_get raises on non-strings before
any file is named); the non-string branch is therefore arbitrary. -/
def url_extension_py (url : PyVal) : String :=
  match url with
  | .str s => find_image_url_extension s
  | _ => "jpeg"

/-- Observable outcome of one downloader call: the returned status string,
the filesystem after the call, and how many times the HTTP session's get
method was invoked during the call. -/
structure DLResult where
  status : String
  fs : FS
  networkCalls : Nat
deriving DecidableEq

/-- download_imgur_image from the source.  The try block issues the GET
unconditionally; on a 200 image response the body is written to
folder/image_id.extension, then re-opened, decoded and compared pixel-wise
with the placeholder asset (deleting the file on equality); every exception
inside the try block becomes a Failure status; the sentinel comparison with
the string unrecovered happens only after the try block and overwrites
whatever status was computed. -/
def download_imgur_image (env : Env) (url : PyVal) (image_id download_folder : String)
    (fs : FS) : DLResult :=
  let tryOutcome : String × FS :=
    match session_get env url with
    | .raise msg => ("Failure: " ++ msg, fs)
    | .response code contentType body =>
      if code = 200 then
        if containsSubstr contentType "image" then
          let extension := url_extension_py url
          let filename := image_id ++ "." ++ extension
          let filepath := os_path_join download_folder filename
          let fs1 := fsWrite fs filepath body
          match env.decode body with
          | .error msg => ("Failure: " ++ msg, fs1)
          | .ok pixels =>
            match env.placeholder with
            | .error msg => ("Failure: " ++ msg, fs1)
            | .ok ph =>
              if pixels = ph then
                ("Failure: Placeholder image downloaded", fsRemove fs1 filepath)
              else ("success", fs1)
        else ("Failure: Not an image", fs)
      else ("Error " ++ toString code, fs)
  let status := if url = .str "unrecovered" then "URL wasnt recovered" else tryOutcome.1
  ⟨status, tryOutcome.2, 1⟩

/-- download_imgur_post from the source: when the URL contains the pattern
://imgur. the first occurrence is rewritten to ://i.imgur., a .jpeg hint is
appended and the result is delegated to download_imgur_image; otherwise the
conversion-failed status is returned with no call to the fetcher. -/
def download_imgur_post (env : Env) (url image_id download_folder : String)
    (fs : FS) : DLResult :=
  if containsSubstr url "://imgur." then
    download_imgur_image env
      (.str (replaceFirst url "://imgur." "://i.imgur." ++ ".jpeg"))
      image_id download_folder fs
  else ⟨"failed_to_convert_to_image_url", fs, 0⟩

/-- Python split on a single question mark, keeping the first segment:
content.split(char)[0]. -/
def takeUntilQ : List Char → List Char
  | [] => []
  | c :: cs => if c = '?' then [] else c :: takeUntilQ cs

/-- Query-string stripping used by get_imgur_album_info. -/
def stripQuery (s : String) : String :=
  String.mk (takeUntilQ s.data)

/-- get_imgur_album_info from the source.  The page GET and the HTML lookup
are not wrapped in any try block, so a raised exception propagates (error).
A non-200 response returns Python None; a page without the og:image meta
element returns the sentinel unrecovered; a meta element without a content
attribute makes the source call split on None, raising AttributeError; a
content attribute is stripped of its query string and, when the remainder
is empty, also mapped to unrecovered. -/
def get_imgur_album_info (env : Env) (album_url : String) : Except String PyVal :=
  match env.albumGet album_url with
  | .raise msg => .error msg
  | .response code og =>
    if code ≠ 200 then .ok .none
    else
      match og with
      | Option.none => .ok (.str "unrecovered")
      | some Option.none => .error "NoneType object has no attribute split"
      | some (some content) =>
        let image_url := stripQuery content
        if image_url = "" then .ok (.str "unrecovered") else .ok (.str image_url)

/-- download_imgur_album from the source: resolve the album page, then pass
whatever came back (a direct URL, the sentinel, or None) straight to
download_imgur_image.  An exception raised inside get_imgur_album_info is
not caught here and propagates to the caller. -/
def download_imgur_album (env : Env) (url image_id download_folder : String)
    (fs : FS) : Except String DLResult :=
  match get_imgur_album_info env url with
  | .error msg => .error msg
  | .ok url_to_download =>
    .ok (download_imgur_image env url_to_download image_id download_folder fs)

/-! ## Concrete environments used by witnesses and counterexamples -/

/-- Transport that always raises; album fetch raises too. -/
def envRaise : Env :=
  ⟨fun _ => .raise "boom", fun _ => .error "nodec", .error "noph", fun _ => .raise "connection refused"⟩

/-- A 200 image response whose bytes decode to pixels different from the
placeholder asset. -/
def envOkImage : Env :=
  ⟨fun _ => .response 200 "image/png" [7, 7], fun _ => .ok [7, 7], .ok [0], fun _ => .raise "c"⟩

/-- A 200 response that is not image content. -/
def envNotImage : Env :=
  ⟨fun _ => .response 200 "text/html" [1], fun _ => .error "d", .error "p", fun _ => .raise "c"⟩

/-- A 200 image response decoding pixel-identically to the placeholder. -/
def envPlaceholder : Env :=
  ⟨fun _ => .response 200 "image/jpeg" [9], fun _ => .ok [3], .ok [3], fun _ => .raise "c"⟩

/-- A 200 image response whose bytes PIL cannot decode: the exception is
raised after the file has been written. -/
def envDecodeFail : Env :=
  ⟨fun _ => .response 200 "image/jpeg" [1, 2, 3],
   fun _ => .error "cannot identify image file", .ok [], fun _ => .raise "c"⟩

/-- Environment whose album page fetch yields a fixed parsed page. -/
def envAlbum (page : AlbumPage) : Env :=
  ⟨fun _ => .raise "g", fun _ => .error "d", .error "p", fun _ => page⟩

/-! ## C3: album classification versus the CDN marker -/

/-- C3 counterexample: the claim says a URL containing an album segment is
classified as album even when i.imgur.com also occurs in it, but on the
concrete URL https://i.imgur.com/a/xyz the classifier returns image, not
album, because the source tests i.imgur.com first. -/
theorem c3_counterexample :
    containsSubstr "https://i.imgur.com/a/xyz" "/a/" = true ∧
    clasify_url "https://i.imgur.com/a/xyz" ≠ PyVal.str "album" ∧
    clasify_url "https://i.imgur.com/a/xyz" = PyVal.str "image" := by
  decide

/-- C3 amended: a URL containing an album or gallery segment is classified
as album exactly when the CDN marker i.imgur.com is absent; when that
marker is present it wins and the classification is image. -/
theorem c3_spec (url : String)
    (h : containsSubstr url "/a/" = true ∨ containsSubstr url "/gallery/" = true) :
    clasify_url url =
      (if containsSubstr url "i.imgur.com" = true then PyVal.str "image"
       else PyVal.str "album") := by
  by_cases hc : containsSubstr url "i.imgur.com" = true
  · simp [clasify_url, hc]
  · have hc' : containsSubstr url "i.imgur.com" = false := by simpa using hc
    rcases h with h | h <;> simp [clasify_url, hc', h]

/-- C3 witness: the amended statement evaluated on https://imgur.com/a/xyz,
which contains an album segment and no CDN marker, and is classified as
album. -/
theorem c3_witness :
    (containsSubstr "https://imgur.com/a/xyz" "/a/" = true ∨
      containsSubstr "https://imgur.com/a/xyz" "/gallery/" = true) ∧
    clasify_url "https://imgur.com/a/xyz" =
      (if containsSubstr "https://imgur.com/a/xyz" "i.imgur.com" = true then PyVal.str "image"
       else PyVal.str "album") :=
  ⟨Or.inl (by decide), c3_spec "https://imgur.com/a/xyz" (Or.inl (by decide))⟩

/-! ## C6: the classifier's rule order -/

/-- C6: clasify_url is a pure total function applying its rules in priority
order, first match winning: a URL containing i.imgur.com is image;
otherwise one containing /a/ or /gallery/ is album; otherwise one
containing imgur.com is post; otherwise the unclassified value -1. -/
theorem c6_spec (url : String) :
    (containsSubstr url "i.imgur.com" = true → clasify_url url = PyVal.str "image") ∧
    (containsSubstr url "i.imgur.com" = false →
      (containsSubstr url "/a/" = true ∨ containsSubstr url "/gallery/" = true) →
      clasify_url url = PyVal.str "album") ∧
    (containsSubstr url "i.imgur.com" = false →
      containsSubstr url "/a/" = false → containsSubstr url "/gallery/" = false →
      containsSubstr url "imgur.com" = true → clasify_url url = PyVal.str "post") ∧
    (containsSubstr url "i.imgur.com" = false →
      containsSubstr url "/a/" = false → containsSubstr url "/gallery/" = false →
      containsSubstr url "imgur.com" = false → clasify_url url = PyVal.int (-1)) := by
  refine ⟨fun h1 => ?_, fun h1 h2 => ?_, fun h1 h2 h3 h4 => ?_, fun h1 h2 h3 h4 => ?_⟩
  · simp [clasify_url, h1]
  · rcases h2 with h2 | h2 <;> simp [clasify_url, h1, h2]
  · simp [clasify_url, h1, h2, h3, h4]
  · simp [clasify_url, h1, h2, h3, h4]

/-- C6 witness: each of the four rules evaluated on a concrete URL that
triggers exactly that rule. -/
theorem c6_witness :
    clasify_url "https://i.imgur.com/x.png" = PyVal.str "image" ∧
    clasify_url "https://imgur.com/gallery/x" = PyVal.str "album" ∧
    clasify_url "https://imgur.com/x" = PyVal.str "post" ∧
    clasify_url "https://example.org/pic" = PyVal.int (-1) :=
  ⟨(c6_spec "https://i.imgur.com/x.png").1 (by decide),
   (c6_spec "https://imgur.com/gallery/x").2.1 (by decide) (Or.inr (by decide)),
   (c6_spec "https://imgur.com/x").2.2.1 (by decide) (by decide) (by decide) (by decide),
   (c6_spec "https://example.org/pic").2.2.2 (by decide) (by decide) (by decide) (by decide)⟩

/-! ## C10: the unclassified value is the integer -1 -/

/-- C10: when none of the three classification rules matches, clasify_url
returns the Python integer -1, which is distinct from every string value,
so a caller comparing the result against string labels never matches the
unclassified case. -/
theorem c10_spec (url : String)
    (h1 : containsSubstr url "i.imgur.com" = false)
    (h2 : containsSubstr url "/a/" = false)
    (h3 : containsSubstr url "/gallery/" = false)
    (h4 : containsSubstr url "imgur.com" = false) :
    clasify_url url = PyVal.int (-1) ∧ ∀ s : String, clasify_url url ≠ PyVal.str s := by
  have hmain : clasify_url url = PyVal.int (-1) := by
    simp [clasify_url, h1, h2, h3, h4]
  exact ⟨hmain, fun s hcontra => by rw [hmain] at hcontra; exact PyVal.noConfusion hcontra⟩

/-- C10 witness: the unclassified result on the concrete non-Imgur URL
https://example.org/pic is the integer -1 and matches no string label. -/
theorem c10_witness :
    clasify_url "https://example.org/pic" = PyVal.int (-1) ∧
    ∀ s : String, clasify_url "https://example.org/pic" ≠ PyVal.str s :=
  c10_spec "https://example.org/pic" (by decide) (by decide) (by decide) (by decide)

/-! ## C9: the extension resolver -/

/-- Unfolding of the scanner on a nonempty list. -/
theorem scanExt_cons (c : Char) (l : List Char) :
    scanExt (c :: l) =
      if c = '.' then
        match matchAfterDot l with
        | some tok => some tok
        | Option.none => scanExt l
      else scanExt l := by
  rfl

/-- Unfolding of the claim-reading scanner on a nonempty list. -/
theorem specTokenScan_cons (c : Char) (l : List Char) :
    specTokenScan (c :: l) =
      if c = '.' then
        match specTokenAt l with
        | some tok => some tok
        | Option.none => specTokenScan l
      else specTokenScan l := by
  rfl

/-- Elements of a takeWhile all satisfy the predicate. -/
theorem mem_takeWhile_sat (p : Char → Bool) :
    ∀ (l : List Char) (c : Char), c ∈ l.takeWhile p → p c = true := by
  intro l
  induction l with
  | nil => intro c hc; simp [List.takeWhile] at hc
  | cons a t ih =>
    intro c hc
    by_cases ha : p a
    · rw [List.takeWhile_cons, if_pos ha] at hc
      rcases List.mem_cons.mp hc with h | h
      · rw [h]; exact ha
      · exact ih c h
    · rw [List.takeWhile_cons, if_neg ha] at hc
      simp at hc

/-- takeWhile walks through a fully satisfying first block. -/
theorem takeWhile_app_all (p : Char → Bool) (l1 l2 : List Char)
    (h : ∀ c ∈ l1, p c = true) :
    (l1 ++ l2).takeWhile p = l1 ++ l2.takeWhile p := by
  induction l1 with
  | nil => simp
  | cons a t ih =>
    have ha : p a = true := h a (by simp)
    simp only [List.cons_append, List.takeWhile_cons, ha, if_pos]
    rw [ih fun c hc => h c (by simp [hc])]

/-- dropWhile discards a fully satisfying first block. -/
theorem dropWhile_app_all (p : Char → Bool) (l1 l2 : List Char)
    (h : ∀ c ∈ l1, p c = true) :
    (l1 ++ l2).dropWhile p = l2.dropWhile p := by
  induction l1 with
  | nil => simp
  | cons a t ih =>
    have ha : p a = true := h a (by simp)
    simp only [List.cons_append, List.dropWhile_cons, ha, if_pos]
    exact ih fun c hc => h c (by simp [hc])

/-- After a block that contains no question mark, dropping the leading
alphanumeric run of the block followed by a literal dot leaves a remainder
that is nonempty (it still holds the dot or a non-alphanumeric block
character), does not start with a question mark, and is not the single
trailing newline the dollar anchor accepts. -/
theorem dropWhile_facts (t : List Char) :
    ∀ p1 : List Char, (∀ c ∈ p1, c ≠ '?') →
      (p1 ++ '.' :: t).dropWhile isAlnumChar ≠ [] ∧
      ((p1 ++ '.' :: t).dropWhile isAlnumChar).head? ≠ some '?' ∧
      (p1 ++ '.' :: t).dropWhile isAlnumChar ≠ ['\n'] := by
  intro p1
  induction p1 with
  | nil =>
    intro _
    rw [List.nil_append, List.dropWhile_cons,
      if_neg (by decide : ¬(isAlnumChar '.' = true))]
    refine ⟨by simp, fun hcon => ?_, fun hcon => ?_⟩
    · rw [List.head?_cons] at hcon
      exact absurd (Option.some.inj hcon) (by decide)
    · injection hcon with h1 h2
      exact absurd h1 (by decide)
  | cons c p ih =>
    intro h
    by_cases hc : isAlnumChar c
    · simp only [List.cons_append, List.dropWhile_cons, hc, if_pos]
      exact ih fun d hd => h d (by simp [hd])
    · rw [List.cons_append, List.dropWhile_cons, if_neg hc]
      refine ⟨by simp, fun hcon => ?_, fun hcon => ?_⟩
      · rw [List.head?_cons] at hcon
        exact h c (by simp) (Option.some.inj hcon)
      · injection hcon with h1 h2
        exact absurd h2 (by simp)

/-- No match of the extension regex can start inside a question-mark-free
block that is followed by a literal dot. -/
theorem matchAfterDot_none (p1 t : List Char) (h : ∀ c ∈ p1, c ≠ '?') :
    matchAfterDot (p1 ++ '.' :: t) = Option.none := by
  obtain ⟨hne, hq, hnl⟩ := dropWhile_facts t p1 h
  unfold matchAfterDot
  by_cases htok : (p1 ++ '.' :: t).takeWhile isAlnumChar = []
  · rw [if_pos htok]
  · have hd : ¬ dollarMatch ((p1 ++ '.' :: t).dropWhile isAlnumChar) := by
      rintro (hcon | hcon)
      · exact hne hcon
      · exact hnl hcon
    have hq3 : ¬ (((p1 ++ '.' :: t).dropWhile isAlnumChar).head? = some '?' ∧
        queryTailOk (((p1 ++ '.' :: t).dropWhile isAlnumChar).drop 1)) := by
      rintro ⟨hcon, _⟩
      exact hq hcon
    rw [if_neg htok, if_neg hd, if_neg hq3]

/-- The regex tail succeeds on a nonempty alphanumeric token followed by a
dollar position or by a question mark whose remainder the dollar anchor
accepts after a run of non-newline characters. -/
theorem matchAfterDot_app (tok qs : List Char) (htok : tok ≠ [])
    (halnum : ∀ c ∈ tok, isAlnumChar c = true)
    (hqs : dollarMatch qs ∨ (qs.head? = some '?' ∧ queryTailOk (qs.drop 1))) :
    matchAfterDot (tok ++ qs) = some tok := by
  have hq0 : qs.takeWhile isAlnumChar = [] ∧ qs.dropWhile isAlnumChar = qs := by
    rcases hqs with (h | h) | ⟨h1, _⟩
    · rw [h]; exact ⟨rfl, rfl⟩
    · rw [h]; exact ⟨by decide, by decide⟩
    · cases qs with
      | nil => simp at h1
      | cons a q2 =>
        rw [List.head?_cons] at h1
        have ha : a = '?' := Option.some.inj h1
        subst ha
        constructor
        · rw [List.takeWhile_cons, if_neg (by decide : ¬(isAlnumChar '?' = true))]
        · rw [List.dropWhile_cons, if_neg (by decide : ¬(isAlnumChar '?' = true))]
  have ht : (tok ++ qs).takeWhile isAlnumChar = tok := by
    rw [takeWhile_app_all _ _ _ halnum, hq0.1, List.append_nil]
  have hd : (tok ++ qs).dropWhile isAlnumChar = qs := by
    rw [dropWhile_app_all _ _ _ halnum, hq0.2]
  unfold matchAfterDot
  rw [ht, hd, if_neg htok]
  rcases hqs with h | ⟨h1, h2⟩
  · rw [if_pos h]
  · have hnd : ¬ dollarMatch qs := by
      cases qs with
      | nil => simp at h1
      | cons a q2 =>
        rw [List.head?_cons] at h1
        have ha : a = '?' := Option.some.inj h1
        subst ha
        rintro (hcon | hcon)
        · exact absurd hcon (by simp)
        · injection hcon with ha2 hb2
          exact absurd ha2 (by decide)
    rw [if_neg hnd, if_pos ⟨h1, h2⟩]

/-- Completeness of the scanner: on a URL of the shape
pre ++ "." ++ tok ++ qs, where pre contains no question mark, tok is a
nonempty alphanumeric token and qs is a remainder the regex tail accepts,
the scanner finds exactly tok. -/
theorem scanExt_complete (tok qs : List Char) (htok : tok ≠ [])
    (halnum : ∀ c ∈ tok, isAlnumChar c = true)
    (hqs : dollarMatch qs ∨ (qs.head? = some '?' ∧ queryTailOk (qs.drop 1))) :
    ∀ pre : List Char, (∀ c ∈ pre, c ≠ '?') →
      scanExt (pre ++ '.' :: (tok ++ qs)) = some tok := by
  have hmad : matchAfterDot (tok ++ qs) = some tok :=
    matchAfterDot_app tok qs htok halnum hqs
  intro pre
  induction pre with
  | nil =>
    intro _
    rw [List.nil_append, scanExt_cons, if_pos rfl, hmad]
  | cons c p ih =>
    intro h
    have hp : ∀ d ∈ p, d ≠ '?' := fun d hd => h d (by simp [hd])
    by_cases hc : c = '.'
    · subst hc
      have hnone : matchAfterDot (p ++ '.' :: (tok ++ qs)) = Option.none :=
        matchAfterDot_none p (tok ++ qs) hp
      rw [List.cons_append, scanExt_cons, if_pos rfl, hnone]
      exact ih hp
    · rw [List.cons_append, scanExt_cons, if_neg hc]
      exact ih hp

/-- Soundness of the scanner: either it fails, or the URL decomposes as
pre ++ "." ++ tok ++ qs with tok the nonempty alphanumeric token it
returns, and qs a remainder the regex tail accepts. -/
theorem scanExt_sound : ∀ cs : List Char,
    scanExt cs = Option.none ∨
    ∃ pre tok qs, cs = pre ++ '.' :: (tok ++ qs) ∧ tok ≠ [] ∧
      (∀ c ∈ tok, isAlnumChar c = true) ∧
      (dollarMatch qs ∨ (qs.head? = some '?' ∧ queryTailOk (qs.drop 1))) ∧
      scanExt cs = some tok := by
  intro cs
  induction cs with
  | nil => left; rfl
  | cons c rest ih =>
    by_cases hc : c = '.'
    · subst hc
      cases hm : matchAfterDot rest with
      | none =>
        rcases ih with h | ⟨pre, tok, qs, heq, h1, h2, h3, h4⟩
        · left; rw [scanExt_cons, if_pos rfl, hm]; exact h
        · right
          refine ⟨'.' :: pre, tok, qs, by simp [heq], h1, h2, h3, ?_⟩
          rw [scanExt_cons, if_pos rfl, hm]; exact h4
      | some tok =>
        right
        have hm2 := hm
        unfold matchAfterDot at hm2
        have htw := List.takeWhile_append_dropWhile (p := isAlnumChar) (l := rest)
        by_cases h1 : rest.takeWhile isAlnumChar = []
        · rw [if_pos h1] at hm2; exact absurd hm2 (by simp)
        · rw [if_neg h1] at hm2
          by_cases h2 : dollarMatch (rest.dropWhile isAlnumChar)
          · rw [if_pos h2] at hm2
            have htok : List.takeWhile isAlnumChar rest = tok := Option.some.inj hm2
            have hrest : rest = tok ++ rest.dropWhile isAlnumChar := by
              conv_lhs => rw [← htw]
              rw [htok]
            refine ⟨[], tok, rest.dropWhile isAlnumChar,
              by rw [List.nil_append]; exact congrArg (List.cons '.') hrest, ?_, ?_,
              Or.inl h2, ?_⟩
            · rw [← htok]; exact h1
            · intro d hd; rw [← htok] at hd; exact mem_takeWhile_sat _ _ _ hd
            · rw [scanExt_cons, if_pos rfl, hm]
          · rw [if_neg h2] at hm2
            by_cases h3 : (rest.dropWhile isAlnumChar).head? = some '?' ∧
                queryTailOk ((rest.dropWhile isAlnumChar).drop 1)
            · rw [if_pos h3] at hm2
              have htok : List.takeWhile isAlnumChar rest = tok := Option.some.inj hm2
              have hrest : rest = tok ++ rest.dropWhile isAlnumChar := by
                conv_lhs => rw [← htw]
                rw [htok]
              refine ⟨[], tok, rest.dropWhile isAlnumChar,
                by rw [List.nil_append]; exact congrArg (List.cons '.') hrest, ?_, ?_,
                Or.inr h3, ?_⟩
              · rw [← htok]; exact h1
              · intro d hd; rw [← htok] at hd; exact mem_takeWhile_sat _ _ _ hd
              · rw [scanExt_cons, if_pos rfl, hm]
            · rw [if_neg h3] at hm2; exact absurd hm2 (by simp)
    · rcases ih with h | ⟨pre, tok, qs, heq, h1, h2, h3, h4⟩
      · left; rw [scanExt_cons, if_neg hc]; exact h
      · right
        refine ⟨c :: pre, tok, qs, by simp [heq], h1, h2, h3, ?_⟩
        rw [scanExt_cons, if_neg hc]; exact h4

/-- The claim-reading tail succeeds on a nonempty alphanumeric token
followed by the strict end of the string or by a question mark. -/
theorem specTokenAt_app (tok qs : List Char) (htok : tok ≠ [])
    (halnum : ∀ c ∈ tok, isAlnumChar c = true)
    (hqs : qs = [] ∨ ∃ q, qs = '?' :: q) :
    specTokenAt (tok ++ qs) = some tok := by
  have hq0 : qs.takeWhile isAlnumChar = [] ∧ qs.dropWhile isAlnumChar = qs := by
    rcases hqs with h | ⟨q, h⟩
    · rw [h]; exact ⟨rfl, rfl⟩
    · subst h
      constructor
      · rw [List.takeWhile_cons, if_neg (by decide : ¬(isAlnumChar '?' = true))]
      · rw [List.dropWhile_cons, if_neg (by decide : ¬(isAlnumChar '?' = true))]
  have ht : (tok ++ qs).takeWhile isAlnumChar = tok := by
    rw [takeWhile_app_all _ _ _ halnum, hq0.1, List.append_nil]
  have hd : (tok ++ qs).dropWhile isAlnumChar = qs := by
    rw [dropWhile_app_all _ _ _ halnum, hq0.2]
  unfold specTokenAt
  rw [ht, hd, if_neg htok]
  rcases hqs with h | ⟨q, h⟩
  · rw [if_pos h]
  · subst h
    rw [if_neg (by simp), if_pos (by rw [List.head?_cons])]

/-- A URL admitting a decomposition in the claim's sense makes the
claim-reading scanner succeed somewhere, wherever the dot sits. -/
theorem specTokenScan_of_decomp (tok qs : List Char) (htok : tok ≠ [])
    (halnum : ∀ c ∈ tok, isAlnumChar c = true)
    (hqs : qs = [] ∨ ∃ q, qs = '?' :: q) :
    ∀ pre : List Char, specTokenScan (pre ++ '.' :: (tok ++ qs)) ≠ Option.none := by
  have hat : specTokenAt (tok ++ qs) = some tok := specTokenAt_app tok qs htok halnum hqs
  intro pre
  induction pre with
  | nil =>
    rw [List.nil_append, specTokenScan_cons, if_pos rfl, hat]
    simp
  | cons c p ih =>
    rw [List.cons_append, specTokenScan_cons]
    by_cases hc : c = '.'
    · rw [if_pos hc]
      cases hsome : specTokenAt (p ++ '.' :: (tok ++ qs)) with
      | some t => simp
      | none => exact ih
    · rw [if_neg hc]
      exact ih

/-- C9 counterexample: on the input a.png followed by a newline, the
source regex returns png because the dollar anchor also matches just
before a trailing newline, yet in the claim's sense no trailing
alphanumeric token preceding an optional query string exists in that
string (every decomposition leaves the newline behind), so the claim
prescribes the default jpeg while the code returns png. -/
theorem c9_counterexample :
    find_image_url_extension (String.mk ['a', '.', 'p', 'n', 'g', '\n']) = "png" ∧
    find_image_url_extension (String.mk ['a', '.', 'p', 'n', 'g', '\n']) ≠ "jpeg" ∧
    ¬∃ pre tok qs : List Char,
      (String.mk ['a', '.', 'p', 'n', 'g', '\n']).data = pre ++ '.' :: (tok ++ qs) ∧
      tok ≠ [] ∧ (∀ c ∈ tok, isAlnumChar c = true) ∧ (qs = [] ∨ ∃ q, qs = '?' :: q) := by
  refine ⟨by decide, by decide, ?_⟩
  rintro ⟨pre, tok, qs, heq, htok, halnum, hqs⟩
  have hscan := specTokenScan_of_decomp tok qs htok halnum hqs pre
  have hnone : specTokenScan (String.mk ['a', '.', 'p', 'n', 'g', '\n']).data =
      Option.none := by decide
  rw [heq] at hnone
  exact hscan hnone

/-- C9 amended: find_image_url_extension is a pure total function that
returns verbatim the trailing dot-separated alphanumeric token whose
remainder the regex tail accepts — the strict end of the URL, a single
trailing newline (Python's dollar anchor matches before it), or a query
string introduced by a question mark that contains no newline except
possibly a single trailing one — and returns the default jpeg when no
position matches; in particular png for
https://i.imgur.com/abc123.png?x=1, jpeg for https://i.imgur.com/abc123,
and png for a.png followed by a newline. -/
theorem c9_spec :
    (∀ pre tok qs : List Char,
      tok ≠ [] → (∀ c ∈ tok, isAlnumChar c = true) →
      (∀ c ∈ pre, c ≠ '?') →
      (dollarMatch qs ∨ (qs.head? = some '?' ∧ queryTailOk (qs.drop 1))) →
      find_image_url_extension (String.mk (pre ++ '.' :: (tok ++ qs))) = String.mk tok) ∧
    (∀ url : String,
      find_image_url_extension url = "jpeg" ∨
      ∃ pre tok qs, url.data = pre ++ '.' :: (tok ++ qs) ∧ tok ≠ [] ∧
        (∀ c ∈ tok, isAlnumChar c = true) ∧
        (dollarMatch qs ∨ (qs.head? = some '?' ∧ queryTailOk (qs.drop 1))) ∧
        find_image_url_extension url = String.mk tok) ∧
    find_image_url_extension "https://i.imgur.com/abc123.png?x=1" = "png" ∧
    find_image_url_extension "https://i.imgur.com/abc123" = "jpeg" ∧
    find_image_url_extension (String.mk ['a', '.', 'p', 'n', 'g', '\n']) = "png" := by
  refine ⟨?_, ?_, by decide, by decide, by decide⟩
  · intro pre tok qs htok halnum hpre hqs
    unfold find_image_url_extension
    rw [show (String.mk (pre ++ '.' :: (tok ++ qs))).data = pre ++ '.' :: (tok ++ qs) from rfl]
    rw [scanExt_complete tok qs htok halnum hqs pre hpre]
  · intro url
    rcases scanExt_sound url.data with h | ⟨pre, tok, qs, heq, h1, h2, h3, h4⟩
    · left; unfold find_image_url_extension; rw [h]
    · right
      exact ⟨pre, tok, qs, heq, h1, h2, h3, by unfold find_image_url_extension; rw [h4]⟩

/-- C9 witness: the completeness part of the characterization evaluated on
the concrete decomposition of a.png as "a" ++ "." ++ "png". -/
theorem c9_witness :
    (['p', 'n', 'g'] ≠ ([] : List Char)) ∧
    find_image_url_extension (String.mk (['a'] ++ '.' :: (['p', 'n', 'g'] ++ []))) =
      String.mk ['p', 'n', 'g'] :=
  ⟨by decide,
   c9_spec.1 ['a'] ['p', 'n', 'g'] [] (by decide) (by decide) (by decide)
     (Or.inl (Or.inl rfl))⟩


/-! ## C2: the sentinel URL -/

/-- C2 counterexample: the claim says the sentinel unrecovered is handled
with zero invocations of the HTTP transport, but the source only compares
the URL with the sentinel after the try block, so the session's get method
has already been invoked once by the time the status is overwritten. -/
theorem c2_counterexample :
    (download_imgur_image envRaise (.str "unrecovered") "id" "dl" []).status =
      "URL wasnt recovered" ∧
    (download_imgur_image envRaise (.str "unrecovered") "id" "dl" []).networkCalls ≠ 0 := by
  decide

/-- C2 amended: for every environment, calling download_imgur_image with
the sentinel string unrecovered returns the status URL wasnt recovered (the
sentinel comparison overwrites whatever the try block computed), but the
HTTP session's get method is still invoked exactly once first. -/
theorem c2_spec (env : Env) (image_id download_folder : String) (fs : FS) :
    (download_imgur_image env (.str "unrecovered") image_id download_folder fs).status =
      "URL wasnt recovered" ∧
    (download_imgur_image env (.str "unrecovered") image_id download_folder fs).networkCalls = 1 := by
  constructor
  · simp [download_imgur_image]
  · simp [download_imgur_image]

/-! ## C7: the post resolver -/

/-- C7: download_imgur_post rewrites the first occurrence of ://imgur. to
://i.imgur., appends .jpeg and delegates to download_imgur_image; when the
pattern is absent it returns failed_to_convert_to_image_url with no network
call; in particular https://imgur.com/xyz is rewritten to
https://i.imgur.com/xyz.jpeg. -/
theorem c7_spec (env : Env) (url image_id download_folder : String) (fs : FS) :
    (containsSubstr url "://imgur." = true →
      download_imgur_post env url image_id download_folder fs =
        download_imgur_image env
          (.str (replaceFirst url "://imgur." "://i.imgur." ++ ".jpeg"))
          image_id download_folder fs) ∧
    (containsSubstr url "://imgur." = false →
      download_imgur_post env url image_id download_folder fs =
        ⟨"failed_to_convert_to_image_url", fs, 0⟩) ∧
    replaceFirst "https://imgur.com/xyz" "://imgur." "://i.imgur." ++ ".jpeg" =
      "https://i.imgur.com/xyz.jpeg" := by
  refine ⟨fun h => ?_, fun h => ?_, by decide⟩
  · simp [download_imgur_post, h]
  · simp [download_imgur_post, h]

/-- C7 witness: both branches evaluated on concrete URLs, a post URL that
matches the pattern and one that does not. -/
theorem c7_witness :
    (containsSubstr "https://imgur.com/xyz" "://imgur." = true ∧
      download_imgur_post envOkImage "https://imgur.com/xyz" "idx" "dl" [] =
        download_imgur_image envOkImage
          (.str (replaceFirst "https://imgur.com/xyz" "://imgur." "://i.imgur." ++ ".jpeg"))
          "idx" "dl" []) ∧
    (containsSubstr "nopattern" "://imgur." = false ∧
      download_imgur_post envOkImage "nopattern" "idx" "dl" [] =
        ⟨"failed_to_convert_to_image_url", [], 0⟩) :=
  ⟨⟨by decide, (c7_spec envOkImage "https://imgur.com/xyz" "idx" "dl" []).1 (by decide)⟩,
   ⟨by decide, (c7_spec envOkImage "nopattern" "idx" "dl" []).2.1 (by decide)⟩⟩

/-! ## C8: the album info resolver -/

/-- C8: get_imgur_album_info returns Python None on a non-200 page fetch,
the sentinel unrecovered when the page has no og:image meta element or when
the content attribute becomes empty after stripping the query string, and
otherwise the stripped content value. -/
theorem c8_spec (env : Env) (album_url : String) :
    (∀ code og, env.albumGet album_url = AlbumPage.response code og → code ≠ 200 →
      get_imgur_album_info env album_url = .ok PyVal.none) ∧
    (env.albumGet album_url = AlbumPage.response 200 Option.none →
      get_imgur_album_info env album_url = .ok (.str "unrecovered")) ∧
    (∀ c, env.albumGet album_url = AlbumPage.response 200 (some (some c)) →
      stripQuery c = "" →
      get_imgur_album_info env album_url = .ok (.str "unrecovered")) ∧
    (∀ c, env.albumGet album_url = AlbumPage.response 200 (some (some c)) →
      stripQuery c ≠ "" →
      get_imgur_album_info env album_url = .ok (.str (stripQuery c))) := by
  refine ⟨fun code og h hne => ?_, fun h => ?_, fun c h he => ?_, fun c h hne => ?_⟩
  · simp [get_imgur_album_info, h, hne]
  · simp [get_imgur_album_info, h]
  · simp [get_imgur_album_info, h, he]
  · simp [get_imgur_album_info, h, hne]

/-- C8 witness: the four cases evaluated on concrete parsed pages — a 404
page, a page without the og:image element, a content attribute that is only
a query string, and a regular content attribute with a query suffix. -/
theorem c8_witness :
    get_imgur_album_info (envAlbum (.response 404 (some (some "x")))) "u" = .ok PyVal.none ∧
    get_imgur_album_info (envAlbum (.response 200 Option.none)) "u" = .ok (.str "unrecovered") ∧
    get_imgur_album_info (envAlbum (.response 200 (some (some "?q")))) "u" =
      .ok (.str "unrecovered") ∧
    get_imgur_album_info (envAlbum (.response 200 (some (some "https://i.imgur.com/q.jpg?x=1")))) "u" =
      .ok (.str (stripQuery "https://i.imgur.com/q.jpg?x=1")) :=
  ⟨(c8_spec (envAlbum (.response 404 (some (some "x")))) "u").1 404 (some (some "x")) rfl
      (by decide),
   (c8_spec (envAlbum (.response 200 Option.none)) "u").2.1 rfl,
   (c8_spec (envAlbum (.response 200 (some (some "?q")))) "u").2.2.1 "?q" rfl (by decide),
   (c8_spec (envAlbum (.response 200 (some (some "https://i.imgur.com/q.jpg?x=1")))) "u").2.2.2
      "https://i.imgur.com/q.jpg?x=1" rfl (by decide)⟩

/-! ## C4: the exception boundary -/

/-- C4 counterexample: the claim says no exception ever propagates from any
of the three download operations, but when the album page fetch raises, the
exception escapes download_imgur_album because get_imgur_album_info is not
wrapped in any try block; the error value models the propagated
exception. -/
theorem c4_counterexample :
    download_imgur_album envRaise "https://imgur.com/a/q" "id" "dl" [] =
      .error "connection refused" := rfl

/-- C4 amended: exceptions raised during the direct image fetch are caught
by download_imgur_image and converted to a Failure status with the
exception message (leaving the filesystem untouched when the GET itself
raised), and download_imgur_post inherits this; but an exception raised
during the album page fetch propagates out of download_imgur_album
uncaught. -/
theorem c4_spec (env : Env) (url image_id download_folder : String) (fs : FS) (m : String) :
    (env.get url = .raise m → url ≠ "unrecovered" →
      (download_imgur_image env (.str url) image_id download_folder fs).status =
        "Failure: " ++ m ∧
      (download_imgur_image env (.str url) image_id download_folder fs).fs = fs) ∧
    (env.albumGet url = .raise m →
      download_imgur_album env url image_id download_folder fs = .error m) := by
  constructor
  · intro hget hurl
    constructor <;> simp [download_imgur_image, session_get, hget, hurl]
  · intro halb
    simp [download_imgur_album, get_imgur_album_info, halb]

/-- C4 witness: both halves evaluated on a concrete environment whose
transport raises — the image fetch downgrades the exception to a status,
the album resolver propagates it. -/
theorem c4_witness :
    ((download_imgur_image envRaise (.str "u") "id" "dl" []).status = "Failure: " ++ "boom" ∧
      (download_imgur_image envRaise (.str "u") "id" "dl" []).fs = []) ∧
    download_imgur_album envRaise "u" "id" "dl" [] = .error "connection refused" :=
  ⟨(c4_spec envRaise "u" "id" "dl" [] "boom").1 rfl (by decide),
   (c4_spec envRaise "u" "id" "dl" [] "connection refused").2 rfl⟩

/-! ## C5: the success and not-an-image paths -/

/-- C5: for a non-sentinel URL, a 200 response whose Content-Type contains
image and whose bytes decode to pixels different from the placeholder is
written in full to folder/identifier.extension and reported success; a 200
response whose Content-Type does not contain image is reported Failure: Not
an image and the filesystem is unchanged. -/
theorem c5_spec (env : Env) (url image_id download_folder : String) (fs : FS)
    (hurl : url ≠ "unrecovered") :
    (∀ ct body px ph,
      env.get url = .response 200 ct body →
      containsSubstr ct "image" = true →
      env.decode body = .ok px → env.placeholder = .ok ph → px ≠ ph →
      (download_imgur_image env (.str url) image_id download_folder fs).status = "success" ∧
      fsLookup (download_imgur_image env (.str url) image_id download_folder fs).fs
        (os_path_join download_folder (image_id ++ "." ++ find_image_url_extension url)) =
        some body) ∧
    (∀ ct body,
      env.get url = .response 200 ct body →
      containsSubstr ct "image" = false →
      (download_imgur_image env (.str url) image_id download_folder fs).status =
        "Failure: Not an image" ∧
      (download_imgur_image env (.str url) image_id download_folder fs).fs = fs) := by
  constructor
  · intro ct body px ph hget hct hdec hph hne
    constructor
    · simp [download_imgur_image, session_get, hget, hct, hdec, hph, hne, hurl]
    · simp [download_imgur_image, session_get, url_extension_py, hget, hct, hdec, hph, hne,
        fsWrite, fsLookup, os_path_join]
  · intro ct body hget hct
    constructor <;> simp [download_imgur_image, session_get, hget, hct, hurl]

/-- C5 witness: the success path on a concrete 200 image response with
non-placeholder pixels, and the not-an-image path on a concrete 200 HTML
response. -/
theorem c5_witness :
    ((download_imgur_image envOkImage (.str "https://i.imgur.com/x.png") "idx" "dl" []).status =
        "success" ∧
      fsLookup (download_imgur_image envOkImage (.str "https://i.imgur.com/x.png") "idx" "dl" []).fs
        (os_path_join "dl" ("idx" ++ "." ++ find_image_url_extension "https://i.imgur.com/x.png")) =
        some [7, 7]) ∧
    ((download_imgur_image envNotImage (.str "https://i.imgur.com/x.png") "idx" "dl" []).status =
        "Failure: Not an image" ∧
      (download_imgur_image envNotImage (.str "https://i.imgur.com/x.png") "idx" "dl" []).fs = []) :=
  ⟨(c5_spec envOkImage "https://i.imgur.com/x.png" "idx" "dl" [] (by decide)).1
      "image/png" [7, 7] [7, 7] [0] rfl (by decide) rfl rfl (by decide),
   (c5_spec envNotImage "https://i.imgur.com/x.png" "idx" "dl" [] (by decide)).2
      "text/html" [1] rfl (by decide)⟩

/-! ## C1: no file left behind on failure -/

/-- Looking a path up after removing it always fails. -/
theorem fsLookup_fsRemove (fs : FS) (p : String) :
    fsLookup (fsRemove fs p) p = Option.none := by
  induction fs with
  | nil => rfl
  | cons e rest ih =>
    obtain ⟨q, b⟩ := e
    by_cases h : q = p
    · simpa [fsRemove, h] using ih
    · simp [fsRemove, fsLookup, h, ih]

/-- C1 counterexample: the claim says no execution path with a non-success
status leaves a file at the target path, but when the downloaded bytes
cannot be decoded the exception is raised after the file has been written,
the status becomes a Failure, and the file dl/abc.jpeg remains on disk. -/
theorem c1_counterexample :
    (download_imgur_image envDecodeFail (.str "https://i.imgur.com/abc.jpeg") "abc" "dl" []).status =
      "Failure: cannot identify image file" ∧
    (download_imgur_image envDecodeFail (.str "https://i.imgur.com/abc.jpeg") "abc" "dl" []).status ≠
      "success" ∧
    fsLookup (download_imgur_image envDecodeFail (.str "https://i.imgur.com/abc.jpeg") "abc" "dl" []).fs
      "dl/abc.jpeg" = some [1, 2, 3] := by
  decide

/-- C1 amended: starting from a filesystem without the target file, a
non-success status of download_imgur_image (for a non-sentinel URL) leaves
no file at the target path — in particular a downloaded placeholder image
is deleted before the placeholder Failure status is returned — unless an
exception was raised after the file had been written, that is, the response
was a 200 image whose decoding or whose placeholder-asset load raised; in
that case the written file may remain. -/
theorem c1_spec (env : Env) (url image_id download_folder : String) (fs : FS)
    (hurl : url ≠ "unrecovered")
    (hfs : fsLookup fs
      (os_path_join download_folder (image_id ++ "." ++ find_image_url_extension url)) =
      Option.none)
    (hns : (download_imgur_image env (.str url) image_id download_folder fs).status ≠ "success") :
    fsLookup (download_imgur_image env (.str url) image_id download_folder fs).fs
        (os_path_join download_folder (image_id ++ "." ++ find_image_url_extension url)) =
      Option.none ∨
    ∃ ct body, env.get url = GetResult.response 200 ct body ∧
      containsSubstr ct "image" = true ∧
      ((∃ m, env.decode body = Except.error m) ∨
        ∃ px m, env.decode body = Except.ok px ∧ env.placeholder = Except.error m) := by
  cases hget : env.get url with
  | raise m =>
    left
    simpa [download_imgur_image, session_get, hget] using hfs
  | response code ct body =>
    by_cases h200 : code = 200
    · subst h200
      by_cases himg : containsSubstr ct "image" = true
      · cases hdec : env.decode body with
        | error m => right; exact ⟨ct, body, rfl, himg, Or.inl ⟨m, hdec⟩⟩
        | ok px =>
          cases hph : env.placeholder with
          | error m => right; exact ⟨ct, body, rfl, himg, Or.inr ⟨px, m, hdec, rfl⟩⟩
          | ok ph =>
            by_cases hpx : px = ph
            · left
              simp [download_imgur_image, session_get, url_extension_py, hget, himg, hdec,
                hph, hpx, fsWrite, os_path_join, fsRemove, fsLookup_fsRemove]
            · exfalso
              exact hns (by simp [download_imgur_image, session_get, hget, himg, hdec, hph,
                hpx, hurl])
      · left
        have himg2 : containsSubstr ct "image" = false := by simpa using himg
        simpa [download_imgur_image, session_get, hget, himg2] using hfs
    · left
      simpa [download_imgur_image, session_get, hget, h200] using hfs

/-- C1 witness: the amended statement evaluated on a concrete environment
whose 200 image response decodes pixel-identically to the placeholder: the
status is the placeholder Failure and no file is left at the target
path. -/
theorem c1_witness :
    fsLookup (download_imgur_image envPlaceholder (.str "https://i.imgur.com/x.png") "idp" "dl" []).fs
        (os_path_join "dl" ("idp" ++ "." ++ find_image_url_extension "https://i.imgur.com/x.png")) =
      Option.none ∨
    ∃ ct body, envPlaceholder.get "https://i.imgur.com/x.png" = GetResult.response 200 ct body ∧
      containsSubstr ct "image" = true ∧
      ((∃ m, envPlaceholder.decode body = Except.error m) ∨
        ∃ px m, envPlaceholder.decode body = Except.ok px ∧
          envPlaceholder.placeholder = Except.error m) :=
  c1_spec envPlaceholder "https://i.imgur.com/x.png" "idp" "dl" [] (by decide) (by decide)
    (by decide)
